import Mathlib

/-!
Verification of the IsoLens sandbox agent and threat-analyzer pipeline.

The definitions below are shallow embeddings of the Python sources
`core/agent/isolens_agent.py` and
`core/threatintelligence/threat_analyzer.py`:

* `AgentState` and `post_execute` embed the thread-safe status tracker
  and the `POST /api/execute` handler (`AgentHTTPHandler._post_execute`).
* `seedPids`, `closePass`, `closeLoop`, `samplePids`, `relatedEvent`
  embed the sample-process-set computation of
  `SysmonCollector._parse_sysmon_xml`.
* `packageArchiveEntries` embeds the zip inclusion policy of
  `IsoLensAgent._package_results`.
* `truncate_json`, `read_csv_as_text`, `read_text_clip` and the tool
  loaders embed the payload construction of `threat_analyzer.py`.
* `parse_tool_json`, `parse_summary_json`, `infer_verdict_from_text`
  and `clean_json_response` embed the response parsing helpers.

Python strings are modelled as `String` where only whole-string
operations occur, and as `List Char` where the code slices at computed
indices (`_clean_json_response`, payload truncation).  Machine-level
JSON decoding (`json.loads`) is modelled by handing the parse functions
an `Option` of the decoded object: `none` is a `JSONDecodeError`.
-/

namespace Isolens

/-! ## Agent state (`AgentState` in isolens_agent.py) -/

/-- Mirror of the `AgentState` tracker: the four mutable fields plus the
immutable `started_at` stamp, as reported by `to_dict`. -/
structure AgentState where
  status : String
  current_sample : Option String
  last_error : Option String
  started_at : String
  execution_count : Nat
deriving DecidableEq, Repr

def AgentState.IDLE : String := "idle"

def AgentState.EXECUTING : String := "executing"

def AgentState.COLLECTING : String := "collecting"

def AgentState.ERROR : String := "error"

/-- `AgentState.set_executing`. -/
def AgentState.set_executing (s : AgentState) (sample : String) : AgentState :=
  { s with status := AgentState.EXECUTING, current_sample := some sample }

/-- `AgentState.set_collecting`. -/
def AgentState.set_collecting (s : AgentState) : AgentState :=
  { s with status := AgentState.COLLECTING }

/-- `AgentState.set_error`. -/
def AgentState.set_error (s : AgentState) (error : String) : AgentState :=
  { s with status := AgentState.ERROR, last_error := some error }

/-- `AgentState.set_idle`. -/
def AgentState.set_idle (s : AgentState) : AgentState :=
  { s with status := AgentState.IDLE, current_sample := none,
           execution_count := s.execution_count + 1 }

/-! ## The `POST /api/execute` handler -/

/-- Body of an execute request, after JSON decoding: `body.get("filename")`
and `body.get("timeout", 60)` / `body.get("screenshot_interval", 5)`. -/
structure ExecuteBody where
  filename : Option String
  timeout : Option Int
  screenshot_interval : Option Int
deriving DecidableEq, Repr

/-- HTTP reply: `_ok` sends `status:"ok"` with code 200, `_err` sends
`status:"error"` with the message and the given code. -/
inductive AgentResponse where
  | ok (message : String) (timeout : Int)
  | err (msg : String) (code : Nat)
deriving DecidableEq, Repr

def AgentResponse.isOk : AgentResponse → Bool
  | .ok _ _ => true
  | .err _ _ => false

/-- `AgentHTTPHandler._post_execute`: reject with 409 while executing,
reject a missing/empty filename with 400, otherwise set the state to
executing (recording the filename) and acknowledge.  The Python handler
performs `set_executing` before `_ok` and only then starts the
background thread; the returned state is therefore the state visible at
acknowledgement time. -/
def post_execute (st : AgentState) (body : ExecuteBody) : AgentState × AgentResponse :=
  if st.status = AgentState.EXECUTING then
    (st, .err "Agent is already executing a sample" 409)
  else
    let filename := body.filename.getD ""
    let timeout := body.timeout.getD 60
    if filename = "" then
      (st, .err "Missing required field: filename" 400)
    else
      (st.set_executing filename,
       .ok ("Execution started for " ++ filename) timeout)

/-- State transitions the background run (`IsoLensAgent.execute_sample`)
can perform after the acknowledgement: `set_error` on failure,
`set_collecting` before artifact collection, `set_idle` on completion.
This over-approximates the actual sequencing of the run. -/
inductive RunStep : AgentState → AgentState → Prop where
  | error (s : AgentState) (msg : String) : RunStep s (s.set_error msg)
  | collecting (s : AgentState) : RunStep s s.set_collecting
  | idle (s : AgentState) : RunStep s s.set_idle

/-! ## Python string primitives

Python string operations are modelled over the character list
`String.data` (one entry per Python character), with kernel-computable
definitions.  `Char.isWhitespace` stands for Python's whitespace class
(the rare `\x0b`/`\x0c` cases are not exercised by any claim). -/

def isSpc (c : Char) : Bool := c.isWhitespace

/-- Leading-whitespace strip. -/
def lstrip (l : List Char) : List Char := l.dropWhile isSpc

/-- Trailing-whitespace strip. -/
def rstrip (l : List Char) : List Char := (l.reverse.dropWhile isSpc).reverse

/-- Python `str.strip()` (both ends). -/
def pyStrip (l : List Char) : List Char := rstrip (lstrip l)

/-- Python `str.strip()` at the `String` level. -/
def pyTrim (s : String) : String := ⟨pyStrip s.data⟩

/-- Python `s[:n]` for `0 ≤ n`. -/
def pyTake (s : String) (n : Nat) : String := ⟨s.data.take n⟩

/-- Python `str.lower()` (ASCII case folding). -/
def pyLower (s : String) : String := ⟨s.data.map Char.toLower⟩

/-- Python `str.endswith`. -/
def pyEndsWith (s suffix : String) : Bool := suffix.data.isSuffixOf s.data

/-- Python `str.find(c)`: index of the first occurrence. -/
def findCh (c : Char) : List Char → Option Nat
  | [] => none
  | x :: xs => if x = c then some 0 else (findCh c xs).map (· + 1)

/-- Python `str.rfind(c)`: index of the last occurrence. -/
def rfindCh (c : Char) (l : List Char) : Option Nat :=
  (findCh c l.reverse).map (fun i => l.length - 1 - i)

/-- Decimal digit value. -/
def digitVal? (c : Char) : Option Nat :=
  if c.isDigit then some (c.toNat - 48) else none

/-- Parse a non-empty all-digit run. -/
def digitsToNat? (l : List Char) : Option Nat :=
  match l with
  | [] => none
  | _ => l.foldl
      (fun acc c =>
        match acc, digitVal? c with
        | some n, some d => some (n * 10 + d)
        | _, _ => none)
      (some 0)

/-- Python `int(str)`: surrounding whitespace and an optional sign are
accepted, anything else raises (`none`).  Underscore digit separators
are not modelled. -/
def pyStrToInt (s : String) : Option Int :=
  match pyStrip s.data with
  | [] => none
  | '-' :: ds => (digitsToNat? ds).map (fun n => -(n : Int))
  | '+' :: ds => (digitsToNat? ds).map (fun n => (n : Int))
  | ds => (digitsToNat? ds).map (fun n => (n : Int))

/-! ## Sysmon summary (`SysmonCollector._parse_sysmon_xml`) -/

/-- One parsed Sysmon event: the `ev.get(field, "")` lookups used by the
sample-process-set computation and by `_related`.  A missing field reads
as the empty string, as with `dict.get`. -/
structure SysEvent where
  EventID : String := ""
  Image : String := ""
  ParentImage : String := ""
  SourceImage : String := ""
  TargetImage : String := ""
  ProcessId : String := ""
  ParentProcessId : String := ""
deriving DecidableEq, Repr

/-- Python substring test `needle in hay`. -/
def strContains (hay needle : String) : Bool :=
  (List.range (hay.data.length + 1)).any
    (fun i => needle.data.isPrefixOf (hay.data.drop i))

/-- Body of the seeding loop: add `ev["ProcessId"]` when the `Image`
contains the (non-empty) lowered sample name and the pid is non-empty. -/
def seedStep (sampleLower : String) (acc : List String) (ev : SysEvent) : List String :=
  if sampleLower ≠ "" ∧ strContains (pyLower ev.Image) sampleLower = true
      ∧ ev.ProcessId ≠ "" then
    ev.ProcessId :: acc
  else acc

/-- The seeding loop over all events.  A list with the same membership
as the Python set. -/
def seedPids (sampleLower : String) (evs : List SysEvent) : List String :=
  evs.foldl (seedStep sampleLower) []

/-- Body of one closure iteration: add the child pid when the parent
pid is already in the set, the child pid is non-empty and not yet
present. -/
def closeStep (acc : List String) (ev : SysEvent) : List String :=
  if ev.ParentProcessId ∈ acc ∧ ev.ProcessId ≠ "" ∧ ev.ProcessId ∉ acc then
    ev.ProcessId :: acc
  else acc

/-- One pass of the closure loop body: walk the events once. -/
def closePass (evs : List SysEvent) (pids : List String) : List String :=
  evs.foldl closeStep pids

/-- The `while changed` loop, fuelled: each productive pass adds at
least one pid drawn from the events, so `evs.length + 1` passes always
reach the fixed point (proved below). -/
def closeLoop (evs : List SysEvent) : Nat → List String → List String
  | 0, pids => pids
  | fuel + 1, pids =>
    let pids' := closePass evs pids
    if pids' = pids then pids else closeLoop evs fuel pids'

/-- The sample-process set: seed, then close under parent→child. -/
def samplePids (sampleLower : String) (evs : List SysEvent) : List String :=
  closeLoop evs (evs.length + 1) (seedPids sampleLower evs)

/-- `_related(ev)`: every event is related when no sample name is set;
otherwise an event is related when one of the four image fields contains
the sample name or its pid is in the sample-process set. -/
def relatedEvent (sampleLower : String) (pids : List String) (ev : SysEvent) : Bool :=
  if sampleLower = "" then true
  else if strContains (pyLower ev.Image) sampleLower
      || strContains (pyLower ev.ParentImage) sampleLower
      || strContains (pyLower ev.SourceImage) sampleLower
      || strContains (pyLower ev.TargetImage) sampleLower then true
  else pids.contains ev.ProcessId

/-- The summary fields relevant to the claims; `sample_pids` keeps the
set's membership (the Python code additionally sorts it for output). -/
structure SysmonSummary where
  total_events : Nat
  sample_events : Nat
  sample_pids : List String
deriving DecidableEq, Repr

/-- Tail of `_parse_sysmon_xml` on a successfully parsed event list:
build the pid set, filter to related events, report counts. -/
def parseSysmonSummary (sampleLower : String) (evs : List SysEvent) : SysmonSummary :=
  let pids := samplePids sampleLower evs
  let filtered := evs.filter (fun ev => relatedEvent sampleLower pids ev)
  { total_events := evs.length
    sample_events := filtered.length
    sample_pids := pids }

/-- Measure for the closure loop: pids of events not yet in the set. -/
def pidsMeasure (evs : List SysEvent) (pids : List String) : Nat :=
  ((evs.map SysEvent.ProcessId).toFinset \ pids.toFinset).card

/-! ## Result packaging (`IsoLensAgent._package_results`) -/

/-- `fpath.endswith((".pml", ".csv", ".pcap"))`. -/
def excludedExt (f : String) : Bool :=
  pyEndsWith f ".pml" || pyEndsWith f ".csv" || pyEndsWith f ".pcap"

/-- The zip-building loop of `_package_results`: gather every file each
collector reported, append `metadata.json` and `analysis_summary.json`,
then write each existing file whose extension is not excluded under its
path relative to the work directory.  The file-existence test and
`os.path.relpath _ workdir` are passed in as functions; the result is
the list of `(arcname, source path)` pairs written to the archive. -/
def packageArchiveEntries (isfile : String → Bool) (relpath : String → String)
    (collection : List (List String)) (metaPath summaryPath : String) :
    List (String × String) :=
  let all_files := (collection.foldl (fun acc fs => acc ++ fs) []) ++ [metaPath, summaryPath]
  (all_files.filter (fun f => isfile f && !(excludedExt f))).map (fun f => (relpath f, f))

/-! ## Payload truncation (`threat_analyzer.py` loaders, C5) -/

def MAX_TOOL_PAYLOAD_CHARS : Nat := 6000

def truncMarker : List Char := "\n... [truncated]".data

/-- `_truncate_json` applied to the serialized JSON text: clip to
`MAX_TOOL_PAYLOAD_CHARS` characters and append the marker. -/
def truncate_json (raw : List Char) : List Char :=
  if MAX_TOOL_PAYLOAD_CHARS < raw.length then
    raw.take MAX_TOOL_PAYLOAD_CHARS ++ truncMarker
  else raw

/-- `_read_text`: `f.read(max_chars)` reads at most
`MAX_TOOL_PAYLOAD_CHARS` characters of the file, no marker. -/
def read_text_clip (content : List Char) : List Char :=
  content.take MAX_TOOL_PAYLOAD_CHARS

/-- The row loop of `_read_csv_as_text`: emit each joined row until the
200-row cap, then a single truncation line. -/
def read_csv_lines : Nat → List (List String) → List String
  | _, [] => []
  | i, row :: rest =>
    if 200 ≤ i then ["... truncated (" ++ toString i ++ "+ rows)"]
    else (String.intercalate "," row) :: read_csv_lines (i + 1) rest

/-- `_read_csv_as_text` on the parsed rows of an existing file. -/
def read_csv_as_text (rows : List (List String)) : String :=
  String.intercalate "\n" (read_csv_lines 0 rows)

/-- `_load_sysmon`: the input is the compact serialization of the
summary JSON when the file exists, decodes and is truthy, else `none`. -/
def load_sysmon (data : Option (List Char)) : List Char × Bool :=
  match data with
  | none => ("No Sysmon data was collected for this analysis.".data, false)
  | some s => (truncate_json s, true)

/-- `_load_procmon` (same shape as `_load_sysmon`). -/
def load_procmon (data : Option (List Char)) : List Char × Bool :=
  match data with
  | none => ("No Procmon data was collected for this analysis.".data, false)
  | some s => (truncate_json s, true)

/-- `_load_network` (same shape as `_load_sysmon`). -/
def load_network (data : Option (List Char)) : List Char × Bool :=
  match data with
  | none => ("No network capture data was collected for this analysis.".data, false)
  | some s => (truncate_json s, true)

/-- `_load_metadata`: the input is the serialization of the combined
manifest/metadata dict when non-empty. -/
def load_metadata (data : Option (List Char)) : List Char × Bool :=
  match data with
  | none => ("No metadata available for this analysis.".data, false)
  | some s => (truncate_json s, true)

/-- `_load_handle`: read at most `MAX_TOOL_PAYLOAD_CHARS` characters of
the snapshot; a missing file or an all-whitespace read is no-data. -/
def load_handle (content : Option (List Char)) : List Char × Bool :=
  match content with
  | none => ("No handle snapshot data was collected for this analysis.".data, false)
  | some c =>
    let text := read_text_clip c
    if text.isEmpty || (pyStrip text).isEmpty then
      ("No handle snapshot data was collected for this analysis.".data, false)
    else (text, true)

/-- `_load_tcpvcon`: CSV rows line-joined with the row cap. -/
def load_tcpvcon (rows : Option (List (List String))) : String × Bool :=
  match rows with
  | none => ("No TCPVcon data was collected for this analysis.", false)
  | some rs =>
    let text := read_csv_as_text rs
    if text.isEmpty || (pyStrip text.data).isEmpty then
      ("No TCPVcon data was collected for this analysis.", false)
    else (text, true)

/-! ## JSON responses (`_parse_tool_json`, `_parse_summary_json`) -/

/-- Decoded JSON values.  Numbers are integers: no claim exercises
non-integral numerics. -/
inductive Json where
  | null
  | jbool (b : Bool)
  | num (n : Int)
  | str (s : String)
  | arr (xs : List Json)
  | obj (fields : List (String × Json))

/-- `dict.get(key, default)` on a decoded object. -/
def jget (fields : List (String × Json)) (key : String) (default : Json) : Json :=
  match fields.find? (fun kv => kv.1 = key) with
  | some kv => kv.2
  | none => default

/-- Python `str(x)` on a decoded value.  Container reprs are
abbreviated: no claim inspects them. -/
def pyStr : Json → String
  | .str s => s
  | .num n => toString n
  | .jbool b => if b then "True" else "False"
  | .null => "None"
  | .arr _ => "[...]"
  | .obj _ => "..."

/-- Python `int(x)`; `none` models the `ValueError`/`TypeError` the
callers catch (turning the value into 0).  Exotic string forms such as
underscore separators are not modelled. -/
def pyToInt : Json → Option Int
  | .num n => some n
  | .jbool b => some (if b then 1 else 0)
  | .str s => pyStrToInt s
  | _ => none

def asList : Json → List Json
  | .arr xs => xs
  | _ => []

structure ToolFinding where
  severity : String
  indicator : String
  description : String
deriving DecidableEq, Repr

structure ToolIoc where
  type : String
  value : String
deriving DecidableEq, Repr

/-- `_normalize_tool_findings`. -/
def normalize_tool_findings (items : List Json) : List ToolFinding :=
  items.foldr
    (fun item out =>
      match item with
      | .obj fields =>
        { severity := pyStr (jget fields "severity" (.str "medium"))
          indicator := pyStr (jget fields "indicator" (.str ""))
          description := pyStr (jget fields "description" (.str "")) } :: out
      | .str s =>
        { severity := "medium", indicator := pyTake s 80, description := s } :: out
      | _ => out)
    []

/-- `_normalize_tool_iocs`. -/
def normalize_tool_iocs (items : List Json) : List ToolIoc :=
  items.foldr
    (fun item out =>
      match item with
      | .obj fields =>
        { type := pyStr (jget fields "type" (.str "unknown"))
          value := pyStr (jget fields "value" (.str "")) } :: out
      | .str s => { type := "unknown", value := s } :: out
      | _ => out)
    []

/-- `ToolAnalysisResult` with its dataclass defaults. -/
structure ToolAnalysisResult where
  tool : String
  agent_name : String
  raw_response : String := ""
  verdict : String := "inconclusive"
  confidence : Int := 0
  findings_count : Nat := 0
  iocs_count : Nat := 0
  summary : String := ""
  findings : List ToolFinding := []
  iocs : List ToolIoc := []
  error : Option String := none
deriving DecidableEq, Repr

/-- `_infer_verdict_from_text`. -/
def infer_verdict_from_text (text : String) : String :=
  let lower := pyLower text
  if ["malicious", "malware", "trojan", "ransomware", "backdoor"].any
      (fun w => strContains lower w) then "malicious"
  else if ["suspicious", "anomal", "unusual", "concerning"].any
      (fun w => strContains lower w) then "suspicious"
  else if ["benign", "clean", "legitimate", "safe"].any
      (fun w => strContains lower w) then "benign"
  else "inconclusive"

/-- `_parse_tool_json`.  `decoded` is the outcome of
`json.loads(raw_json)` (`none` on `JSONDecodeError`, whose message is
`excMsg`); on success the loaded object is a dict given by its fields. -/
def parse_tool_json (decoded : Option (List (String × Json))) (raw_json : String)
    (excMsg : String) (result : ToolAnalysisResult) : ToolAnalysisResult :=
  match decoded with
  | some data =>
    let r := { result with
      verdict := pyLower (pyTrim (pyStr (jget data "verdict" (.str "inconclusive"))))
      confidence := (pyToInt (jget data "confidence" (.num 0))).getD 0
      summary := pyTrim (pyStr (jget data "summary" (.str ""))) }
    let r := match jget data "findings" (.arr []) with
      | .arr items =>
        let fs := normalize_tool_findings items
        { r with findings := fs, findings_count := fs.length }
      | _ => r
    let r := match jget data "iocs" (.arr []) with
      | .arr items =>
        let ios := normalize_tool_iocs items
        { r with iocs := ios, iocs_count := ios.length }
      | _ => r
    r
  | none =>
    if pyTrim raw_json ≠ "" then
      { result with
        summary := pyTake (pyTrim raw_json) 2000
        verdict := infer_verdict_from_text raw_json
        confidence := 40
        error := some ("JSON parse error: " ++ excMsg) }
    else
      { result with error := some ("JSON parse error: " ++ excMsg) }

structure SummaryFinding where
  source : String
  severity : String
  description : String
deriving DecidableEq, Repr

structure SummaryIoc where
  type : String
  severity : String
  value : String
deriving DecidableEq, Repr

structure MitreEntry where
  id : String
  name : String
  tactic : String
  description : String
deriving DecidableEq, Repr

structure Recommendation where
  priority : String
  action : String
deriving DecidableEq, Repr

/-- `_normalize_findings`. -/
def normalize_findings (items : List Json) : List SummaryFinding :=
  items.foldr
    (fun item out =>
      match item with
      | .obj fields =>
        { source := pyStr (jget fields "source" (.str ""))
          severity := pyStr (jget fields "severity" (.str "medium"))
          description := pyStr (jget fields "description" (jget fields "text" (.str ""))) } :: out
      | .str s => { source := "", severity := "medium", description := s } :: out
      | _ => out)
    []

/-- `_normalize_iocs`. -/
def normalize_iocs (items : List Json) : List SummaryIoc :=
  items.foldr
    (fun item out =>
      match item with
      | .obj fields =>
        { type := pyStr (jget fields "type" (.str "unknown"))
          severity := pyStr (jget fields "severity" (.str "medium"))
          value := pyStr (jget fields "value" (.str "")) } :: out
      | .str s => { type := "unknown", severity := "medium", value := s } :: out
      | _ => out)
    []

/-- `_normalize_mitre`. -/
def normalize_mitre (items : List Json) : List MitreEntry :=
  items.foldr
    (fun item out =>
      match item with
      | .obj fields =>
        { id := pyStr (jget fields "id" (jget fields "technique_id" (.str "")))
          name := pyStr (jget fields "name" (.str ""))
          tactic := pyStr (jget fields "tactic" (.str ""))
          description := pyStr (jget fields "description" (.str "")) } :: out
      | .str s => { id := "", name := s, tactic := "", description := "" } :: out
      | _ => out)
    []

/-- `_normalize_recommendations`. -/
def normalize_recommendations (items : List Json) : List Recommendation :=
  items.foldr
    (fun item out =>
      match item with
      | .obj fields =>
        { priority := pyStr (jget fields "priority" (.str "medium"))
          action := pyStr (jget fields "action" (jget fields "text" (.str ""))) } :: out
      | .str s => { priority := "medium", action := s } :: out
      | _ => out)
    []

/-- `ThreatAnalysisReport` with its dataclass defaults (the fields
`_parse_summary_json` can touch, plus identifiers). -/
structure ThreatAnalysisReport where
  analysis_id : String
  model : String := ""
  started_at : Option String := none
  completed_at : Option String := none
  status : String := "pending"
  error : Option String := none
  tool_results : List ToolAnalysisResult := []
  risk_score : Int := 0
  threat_level : String := "none"
  malware_type : String := "unknown"
  malware_family : String := "unknown"
  platform : String := "unknown"
  classification_confidence : Int := 0
  executive_summary : String := ""
  detailed_analysis : String := ""
  key_findings : List SummaryFinding := []
  iocs : List SummaryIoc := []
  mitre_attack : List MitreEntry := []
  recommendations : List Recommendation := []
  raw_summary : String := ""
deriving DecidableEq, Repr

/-- `_parse_summary_json`, with the same decoding convention as
`parse_tool_json`. -/
def parse_summary_json (decoded : Option (List (String × Json))) (raw_json : String)
    (excMsg : String) (report : ThreatAnalysisReport) : ThreatAnalysisReport :=
  match decoded with
  | some data =>
    let r := { report with
      risk_score := (pyToInt (jget data "risk_score" (.num 0))).getD 0
      threat_level := pyLower (pyTrim (pyStr (jget data "threat_level" (.str "none")))) }
    let r := match jget data "classification" (.obj []) with
      | .obj cls =>
        { r with
          malware_type := pyTrim (pyStr (jget cls "malware_type" (.str "unknown")))
          malware_family := pyTrim (pyStr (jget cls "malware_family" (.str "unknown")))
          platform := pyTrim (pyStr (jget cls "platform" (.str "unknown")))
          classification_confidence := (pyToInt (jget cls "confidence" (.num 0))).getD 0 }
      | .str s => { r with malware_type := pyTrim s, classification_confidence := 50 }
      | _ => r
    { r with
      executive_summary := pyTrim (pyStr (jget data "executive_summary" (.str "")))
      detailed_analysis := pyTrim (pyStr (jget data "detailed_analysis" (.str "")))
      key_findings := normalize_findings (asList (jget data "key_findings" (.arr [])))
      iocs := normalize_iocs (asList (jget data "iocs" (.arr [])))
      mitre_attack := normalize_mitre (asList (jget data "mitre_attack" (.arr [])))
      recommendations := normalize_recommendations (asList (jget data "recommendations" (.arr []))) }
  | none =>
    if pyTrim raw_json ≠ "" then
      let verdicts := (report.tool_results.map ToolAnalysisResult.verdict).filter
        (fun v => v ≠ "inconclusive")
      let mal_count := (verdicts.filter (fun v => v = "malicious")).length
      let sus_count := (verdicts.filter (fun v => v = "suspicious")).length
      let base := { report with
        executive_summary := pyTake (pyTrim raw_json) 3000
        detailed_analysis := pyTrim raw_json
        error := none }
      if 0 < mal_count then
        let score : Int := min 85 (50 + (mal_count : Int) * 15)
        { base with risk_score := score
                    threat_level := if 70 ≤ score then "high" else "medium" }
      else if 0 < sus_count then
        { base with risk_score := min 65 (30 + (sus_count : Int) * 15)
                    threat_level := "medium" }
      else
        { base with risk_score := 20, threat_level := "low" }
    else
      { report with error := some ("Summary JSON parse error: " ++ excMsg) }

/-- The per-verdict count computed by the fallback branch of
`_parse_summary_json`: verdicts of the parsed tool results, with
`inconclusive` filtered out first. -/
def toolVerdictCount (report : ThreatAnalysisReport) (verdict : String) : Nat :=
  (((report.tool_results.map ToolAnalysisResult.verdict).filter
    (fun v => v ≠ "inconclusive")).filter (fun v => v = verdict)).length

/-! ## Response cleanup (`_clean_json_response`, C9) -/

def fenceL : List Char := "```".data

/-- The markdown-fence removal step: when the stripped text starts with
a fence, drop the first line (when the newline is not at position 0),
drop a trailing fence, and strip again. -/
def fenceStrip (text : List Char) : List Char :=
  if fenceL.isPrefixOf text then
    let t1 := match findCh '\n' text with
      | some i => if 0 < i then text.drop (i + 1) else text
      | none => text
    let t2 := if fenceL.isSuffixOf t1 then t1.take (t1.length - 3) else t1
    pyStrip t2
  else text

/-- The brace extraction step: slice from the first `\x7b` to the last
`\x7d` when the latter comes strictly after the former. -/
def braceSlice (text : List Char) : List Char :=
  match findCh '{' text, rfindCh '}' text with
  | some bs, some be => if bs < be then (text.drop bs).take (be + 1 - bs) else text
  | some _, none => text
  | none, _ => text

/-- `_clean_json_response`: strip, remove fences, extract the brace
span. -/
def clean_json_response (raw : List Char) : List Char :=
  braceSlice (fenceStrip (pyStrip raw))

/-! # Theorems -/

/-! ## C1 / C2: the execute endpoint -/

/-- Along any sequence of run transitions started from a non-idle
state, the execution count never decreases, and reaching `idle`
strictly increases it (only `set_idle` produces `idle`, and it
increments the counter). -/
theorem runSteps_count_invariant (st0 s' : AgentState)
    (h : Relation.ReflTransGen RunStep st0 s')
    (h0 : st0.status ≠ AgentState.IDLE) :
    st0.execution_count ≤ s'.execution_count ∧
      (s'.status = AgentState.IDLE → st0.execution_count < s'.execution_count) := by
  induction h with
  | refl => exact ⟨le_refl _, fun hidle => absurd hidle h0⟩
  | @tail b c _ hstep ih =>
    cases hstep with
    | error msg =>
      refine ⟨ih.1, fun hidle => ?_⟩
      have he : AgentState.ERROR = AgentState.IDLE := hidle
      exact absurd he (by decide)
    | collecting =>
      refine ⟨ih.1, fun hidle => ?_⟩
      have he : AgentState.COLLECTING = AgentState.IDLE := hidle
      exact absurd he (by decide)
    | idle =>
      have hc : (b.set_idle).execution_count = b.execution_count + 1 := rfl
      have h1 := ih.1
      exact ⟨by omega, fun _ => by omega⟩

/-- C1: a `POST /api/execute` accepted while the agent is not executing
returns with the state already set to `executing` and the submitted
filename recorded; consequently any state reachable by the run's later
transitions differs from the pre-submission idle state, so a status
read after the acknowledgement never observes it. -/
theorem execute_ack_sets_executing (st st' : AgentState) (body : ExecuteBody)
    (r : AgentResponse) (hrun : post_execute st body = (st', r))
    (hok : r.isOk = true) :
    st'.status = AgentState.EXECUTING ∧
    st'.current_sample = some (body.filename.getD "") ∧
    ∀ s', Relation.ReflTransGen RunStep st' s' →
      st.status = AgentState.IDLE → s' ≠ st := by
  by_cases h1 : st.status = AgentState.EXECUTING
  · simp only [post_execute, if_pos h1, Prod.mk.injEq] at hrun
    rw [← hrun.2] at hok
    simp [AgentResponse.isOk] at hok
  · by_cases h2 : body.filename.getD "" = ""
    · simp only [post_execute, if_neg h1, if_pos h2, Prod.mk.injEq] at hrun
      rw [← hrun.2] at hok
      simp [AgentResponse.isOk] at hok
    · simp only [post_execute, if_neg h1, if_neg h2, Prod.mk.injEq] at hrun
      obtain ⟨hst, _⟩ := hrun
      subst hst
      refine ⟨rfl, rfl, ?_⟩
      intro s' hreach hidle heq
      have hinv := runSteps_count_invariant _ s' hreach
        (by simp [AgentState.set_executing, AgentState.EXECUTING, AgentState.IDLE])
      have hlt := hinv.2 (by rw [heq, hidle])
      simp only [AgentState.set_executing] at hlt
      rw [heq] at hlt
      omega

/-- Witness for C1 at a concrete idle state and request: the state at
acknowledgement time is `executing`, and the state reached when the run
later returns to idle is distinguishable from the pre-submission one. -/
theorem execute_ack_sets_executing_witness :
    ((post_execute ⟨"idle", none, none, "t0", 0⟩ ⟨some "mal.exe", none, none⟩).1).status
        = AgentState.EXECUTING ∧
    ((post_execute ⟨"idle", none, none, "t0", 0⟩ ⟨some "mal.exe", none, none⟩).1).set_idle
        ≠ (⟨"idle", none, none, "t0", 0⟩ : AgentState) := by
  have h := execute_ack_sets_executing ⟨"idle", none, none, "t0", 0⟩
      ((post_execute ⟨"idle", none, none, "t0", 0⟩ ⟨some "mal.exe", none, none⟩).1)
      ⟨some "mal.exe", none, none⟩
      ((post_execute ⟨"idle", none, none, "t0", 0⟩ ⟨some "mal.exe", none, none⟩).2)
      rfl (by decide)
  exact ⟨h.1, h.2.2 _ (Relation.ReflTransGen.single (RunStep.idle _)) rfl⟩

/-- C2: an execute request issued while the agent status is `executing`
is answered with the conflict error response (HTTP 409, error shape)
and leaves the agent state unchanged. -/
theorem execute_conflict_409 (st : AgentState) (body : ExecuteBody)
    (h : st.status = AgentState.EXECUTING) :
    post_execute st body = (st, .err "Agent is already executing a sample" 409) := by
  simp [post_execute, h]

/-- Witness for C2 at a concrete executing state. -/
theorem execute_conflict_409_witness :
    post_execute ⟨"executing", some "a.exe", none, "t0", 3⟩ ⟨some "b.exe", none, none⟩
      = (⟨"executing", some "a.exe", none, "t0", 3⟩,
         .err "Agent is already executing a sample" 409) :=
  execute_conflict_409 ⟨"executing", some "a.exe", none, "t0", 3⟩
    ⟨some "b.exe", none, none⟩ rfl

/-! ## C3 / C10: the Sysmon sample-process set -/

theorem mem_closeStep_of_mem (acc : List String) (ev : SysEvent) (x : String)
    (hx : x ∈ acc) : x ∈ closeStep acc ev := by
  unfold closeStep
  split
  · exact List.mem_cons_of_mem _ hx
  · exact hx

theorem mem_closePass_of_mem (evs : List SysEvent) (pids : List String) (x : String)
    (hx : x ∈ pids) : x ∈ closePass evs pids := by
  induction evs generalizing pids with
  | nil => simpa [closePass] using hx
  | cons e evs ih =>
    rw [closePass, List.foldl_cons]
    exact ih (closeStep pids e) (mem_closeStep_of_mem pids e x hx)

theorem mem_of_mem_closeStep (acc : List String) (ev : SysEvent) (x : String)
    (hx : x ∈ closeStep acc ev) : x ∈ acc ∨ x = ev.ProcessId := by
  unfold closeStep at hx
  split at hx
  · rcases List.mem_cons.mp hx with h | h
    · exact Or.inr h
    · exact Or.inl h
  · exact Or.inl hx

theorem mem_of_mem_closePass (evs : List SysEvent) (pids : List String) (x : String)
    (hx : x ∈ closePass evs pids) : x ∈ pids ∨ x ∈ evs.map SysEvent.ProcessId := by
  induction evs generalizing pids with
  | nil => exact Or.inl (by simpa [closePass] using hx)
  | cons e evs ih =>
    rw [closePass, List.foldl_cons] at hx
    rcases ih (closeStep pids e) hx with h | h
    · rcases mem_of_mem_closeStep pids e x h with h' | h'
      · exact Or.inl h'
      · exact Or.inr (by simp [h'])
    · exact Or.inr (by simp [List.mem_cons]; exact Or.inr (by simpa using h))

theorem closePass_exists_new_of_ne (evs : List SysEvent) (pids : List String)
    (h : closePass evs pids ≠ pids) :
    ∃ x, x ∈ closePass evs pids ∧ x ∉ pids ∧ x ∈ evs.map SysEvent.ProcessId := by
  induction evs generalizing pids with
  | nil => exact absurd rfl h
  | cons e evs ih =>
    rw [closePass, List.foldl_cons] at h ⊢
    by_cases hc : e.ParentProcessId ∈ pids ∧ e.ProcessId ≠ "" ∧ e.ProcessId ∉ pids
    · refine ⟨e.ProcessId, ?_, hc.2.2, by simp⟩
      have hmem : e.ProcessId ∈ closeStep pids e := by
        unfold closeStep
        rw [if_pos hc]
        exact List.mem_cons_self _ _
      exact mem_closePass_of_mem evs _ _ hmem
    · have hstep : closeStep pids e = pids := by unfold closeStep; rw [if_neg hc]
      rw [hstep] at h ⊢
      obtain ⟨x, hx1, hx2, hx3⟩ := ih pids h
      exact ⟨x, hx1, hx2, by simp [List.mem_cons]; exact Or.inr (by simpa using hx3)⟩

theorem closePass_closed (evs : List SysEvent) (pids : List String) (ev : SysEvent)
    (hev : ev ∈ evs) (hpp : ev.ParentProcessId ∈ pids) (hpid : ev.ProcessId ≠ "") :
    ev.ProcessId ∈ closePass evs pids := by
  induction evs generalizing pids with
  | nil => simp at hev
  | cons e evs ih =>
    rw [closePass, List.foldl_cons]
    rcases List.mem_cons.mp hev with rfl | hev'
    · have hmem : ev.ProcessId ∈ closeStep pids ev := by
        unfold closeStep
        split
        · exact List.mem_cons_self _ _
        · rename_i hneg
          push_neg at hneg
          exact hneg hpp hpid
      exact mem_closePass_of_mem evs _ _ hmem
    · exact ih (closeStep pids e) hev' (mem_closeStep_of_mem pids e _ hpp)

theorem closePass_measure_lt (evs : List SysEvent) (pids : List String)
    (h : closePass evs pids ≠ pids) :
    pidsMeasure evs (closePass evs pids) < pidsMeasure evs pids := by
  obtain ⟨x, hx, hnx, hall⟩ := closePass_exists_new_of_ne evs pids h
  apply Finset.card_lt_card
  rw [Finset.ssubset_def]
  constructor
  · intro y hy
    simp only [Finset.mem_sdiff, List.mem_toFinset] at hy ⊢
    exact ⟨hy.1, fun hyp => hy.2 (mem_closePass_of_mem evs pids y hyp)⟩
  · intro hsub
    have hxmem : x ∈ (evs.map SysEvent.ProcessId).toFinset \ pids.toFinset := by
      simp only [Finset.mem_sdiff, List.mem_toFinset]
      exact ⟨hall, hnx⟩
    have hx' := hsub hxmem
    simp only [Finset.mem_sdiff, List.mem_toFinset] at hx'
    exact hx'.2 hx

theorem mem_closeLoop_of_mem (evs : List SysEvent) (fuel : Nat) (pids : List String)
    (x : String) (hx : x ∈ pids) : x ∈ closeLoop evs fuel pids := by
  induction fuel generalizing pids with
  | zero => simpa [closeLoop] using hx
  | succ n ih =>
    simp only [closeLoop]
    split
    · exact hx
    · exact ih _ (mem_closePass_of_mem evs pids x hx)

theorem closeLoop_fix (evs : List SysEvent) (fuel : Nat) (pids : List String)
    (hf : pidsMeasure evs pids < fuel) :
    closePass evs (closeLoop evs fuel pids) = closeLoop evs fuel pids := by
  induction fuel generalizing pids with
  | zero => omega
  | succ n ih =>
    simp only [closeLoop]
    by_cases h : closePass evs pids = pids
    · rw [if_pos h]
      exact h
    · rw [if_neg h]
      apply ih
      have := closePass_measure_lt evs pids h
      omega

theorem pidsMeasure_le (evs : List SysEvent) (pids : List String) :
    pidsMeasure evs pids ≤ evs.length := by
  unfold pidsMeasure
  calc ((evs.map SysEvent.ProcessId).toFinset \ pids.toFinset).card
      ≤ (evs.map SysEvent.ProcessId).toFinset.card :=
        Finset.card_le_card (Finset.sdiff_subset)
    _ ≤ (evs.map SysEvent.ProcessId).length := (evs.map SysEvent.ProcessId).toFinset_card_le
    _ = evs.length := List.length_map _ _

theorem mem_seedFold_of_mem (sampleLower : String) (evs : List SysEvent)
    (acc : List String) (x : String) (hx : x ∈ acc) :
    x ∈ evs.foldl (seedStep sampleLower) acc := by
  induction evs generalizing acc with
  | nil => simpa using hx
  | cons e evs ih =>
    rw [List.foldl_cons]
    apply ih
    unfold seedStep
    split
    · exact List.mem_cons_of_mem _ hx
    · exact hx

theorem mem_seedPids (sampleLower : String) (evs : List SysEvent) (ev : SysEvent)
    (hev : ev ∈ evs) (hs : sampleLower ≠ "")
    (him : strContains (pyLower ev.Image) sampleLower = true)
    (hpid : ev.ProcessId ≠ "") : ev.ProcessId ∈ seedPids sampleLower evs := by
  unfold seedPids
  suffices h : ∀ acc, ev.ProcessId ∈ evs.foldl (seedStep sampleLower) acc from h []
  induction evs with
  | nil => simp at hev
  | cons e evs ih =>
    intro acc
    rw [List.foldl_cons]
    rcases List.mem_cons.mp hev with rfl | hev'
    · apply mem_seedFold_of_mem
      unfold seedStep
      rw [if_pos ⟨hs, him, hpid⟩]
      exact List.mem_cons_self _ _
    · exact ih hev' _

/-- C3: for a non-empty lowered sample basename, the sample-process set
is seeded with the (non-empty) `ProcessId` of every event whose `Image`
contains the basename case-insensitively, and is transitively closed
under parent→child: no event has its `ParentProcessId` in the set and a
non-empty `ProcessId` outside it. -/
theorem sysmon_pid_set_closed (sampleLower : String) (evs : List SysEvent)
    (hs : sampleLower ≠ "") :
    (∀ ev ∈ evs, ev.ParentProcessId ∈ samplePids sampleLower evs →
        ev.ProcessId ≠ "" → ev.ProcessId ∈ samplePids sampleLower evs) ∧
    (∀ ev ∈ evs, strContains (pyLower ev.Image) sampleLower = true →
        ev.ProcessId ≠ "" → ev.ProcessId ∈ samplePids sampleLower evs) := by
  constructor
  · intro ev hev hpp hpid
    have hfix : closePass evs (samplePids sampleLower evs) = samplePids sampleLower evs := by
      unfold samplePids
      exact closeLoop_fix evs _ _
        (lt_of_le_of_lt (pidsMeasure_le evs _) (Nat.lt_succ_self _))
    have h := closePass_closed evs (samplePids sampleLower evs) ev hev hpp hpid
    rwa [hfix] at h
  · intro ev hev him hpid
    unfold samplePids
    exact mem_closeLoop_of_mem evs _ _ _ (mem_seedPids sampleLower evs ev hev hs him hpid)

/-- Witness for C3: the sample image event seeds pid 100; the child
process 200 spawned by 100 is pulled in by the closure. -/
theorem sysmon_pid_set_closed_witness :
    "100" ∈ samplePids "mal.exe"
        [⟨"1", "C:/Users/mal.exe", "", "", "", "100", ""⟩,
         ⟨"1", "C:/Windows/cmd.exe", "", "", "", "200", "100"⟩] ∧
    "200" ∈ samplePids "mal.exe"
        [⟨"1", "C:/Users/mal.exe", "", "", "", "100", ""⟩,
         ⟨"1", "C:/Windows/cmd.exe", "", "", "", "200", "100"⟩] := by
  have h := sysmon_pid_set_closed "mal.exe"
      [⟨"1", "C:/Users/mal.exe", "", "", "", "100", ""⟩,
       ⟨"1", "C:/Windows/cmd.exe", "", "", "", "200", "100"⟩] (by decide)
  have h100 := h.2 ⟨"1", "C:/Users/mal.exe", "", "", "", "100", ""⟩
      (by simp) (by decide) (by decide)
  have h200 := h.1 ⟨"1", "C:/Windows/cmd.exe", "", "", "", "200", "100"⟩
      (by simp) h100 (by decide)
  exact ⟨h100, h200⟩

/-- C10: with an empty (unset) sample basename every parsed event is
classified sample-related, so the filtered list is the full event list
and the summary reports `sample_events = total_events`. -/
theorem sysmon_empty_sample_all_related (evs : List SysEvent) :
    evs.filter (fun ev => relatedEvent "" (samplePids "" evs) ev) = evs ∧
    (parseSysmonSummary "" evs).sample_events = (parseSysmonSummary "" evs).total_events := by
  have hrel : ∀ (pids : List String) (ev : SysEvent), relatedEvent "" pids ev = true := by
    intro pids ev
    simp [relatedEvent]
  have hfilter : evs.filter (fun ev => relatedEvent "" (samplePids "" evs) ev) = evs :=
    List.filter_eq_self.mpr (fun ev _ => hrel _ ev)
  refine ⟨hfilter, ?_⟩
  simp only [parseSysmonSummary, hfilter]

/-! ## C4: the result archive -/

theorem foldl_append_eq_flatten (collection : List (List String)) (acc : List String) :
    collection.foldl (fun acc fs => acc ++ fs) acc = acc ++ collection.flatten := by
  induction collection generalizing acc with
  | nil => simp
  | cons fs rest ih =>
    rw [List.foldl_cons, ih, List.flatten_cons, List.append_assoc]

/-- C4: the archive entry list excludes every source path ending in
`.pml`, `.csv` or `.pcap`, and contains, keyed by its
relative-to-workdir archive name, every other collector-reported file
that exists, as well as `metadata.json` and `analysis_summary.json`. -/
theorem package_excludes_raw_includes_rest (isfile : String → Bool)
    (relpath : String → String) (collection : List (List String))
    (metaPath summaryPath : String) :
    (∀ e ∈ packageArchiveEntries isfile relpath collection metaPath summaryPath,
        excludedExt e.2 = false) ∧
    (∀ f : String, ((∃ fs ∈ collection, f ∈ fs) ∨ f = metaPath ∨ f = summaryPath) →
        isfile f = true → excludedExt f = false →
        (relpath f, f) ∈ packageArchiveEntries isfile relpath collection metaPath summaryPath) := by
  constructor
  · intro e he
    simp only [packageArchiveEntries, List.mem_map, List.mem_filter] at he
    obtain ⟨f, ⟨_, hpred⟩, rfl⟩ := he
    simp only [Bool.and_eq_true, Bool.not_eq_true'] at hpred
    exact hpred.2
  · intro f hsrc hf hext
    simp only [packageArchiveEntries, List.mem_map]
    refine ⟨f, ?_, rfl⟩
    simp only [List.mem_filter, Bool.and_eq_true, Bool.not_eq_true']
    refine ⟨?_, hf, hext⟩
    rw [foldl_append_eq_flatten, List.nil_append, List.mem_append]
    rcases hsrc with h | h | h
    · exact Or.inl (List.mem_flatten.mpr h)
    · exact Or.inr (by simp [h])
    · exact Or.inr (by simp [h])

/-- Witness for C4: with every file existing and identity relpath, the
metadata sidecar and a collector summary are archived while the raw
`.pml` is not (first conjunct instantiated by the theorem). -/
theorem package_excludes_raw_includes_rest_witness :
    ("work/artifacts/metadata.json", "work/artifacts/metadata.json") ∈
      packageArchiveEntries (fun _ => true) (fun s => s)
        [["work/artifacts/sysmon/sysmon_summary.json", "work/artifacts/procmon/procmon.pml"]]
        "work/artifacts/metadata.json" "work/artifacts/analysis_summary.json" ∧
    ("work/artifacts/sysmon/sysmon_summary.json", "work/artifacts/sysmon/sysmon_summary.json") ∈
      packageArchiveEntries (fun _ => true) (fun s => s)
        [["work/artifacts/sysmon/sysmon_summary.json", "work/artifacts/procmon/procmon.pml"]]
        "work/artifacts/metadata.json" "work/artifacts/analysis_summary.json" := by
  have h := package_excludes_raw_includes_rest (fun _ => true) (fun s => s)
      [["work/artifacts/sysmon/sysmon_summary.json", "work/artifacts/procmon/procmon.pml"]]
      "work/artifacts/metadata.json" "work/artifacts/analysis_summary.json"
  refine ⟨h.2 _ (Or.inr (Or.inl rfl)) rfl (by decide), h.2 _ (Or.inl ?_) rfl (by decide)⟩
  exact ⟨["work/artifacts/sysmon/sysmon_summary.json", "work/artifacts/procmon/procmon.pml"],
         by simp, by simp⟩

/-! ## C5: loader payload sizes -/

theorem read_csv_lines_length_le (rows : List (List String)) (i : Nat) (hi : i ≤ 200) :
    (read_csv_lines i rows).length ≤ 201 - i := by
  induction rows generalizing i with
  | nil => simp [read_csv_lines]
  | cons row rest ih =>
    simp only [read_csv_lines]
    by_cases h : 200 ≤ i
    · rw [if_pos h]
      simp only [List.length_cons, List.length_nil]
      omega
    · rw [if_neg h]
      simp only [List.length_cons]
      have := ih (i + 1) (by omega)
      omega

/-- C5 counterexample: a sysmon summary whose compact serialization has
6001 characters produces a loader payload of 6016 characters — the
marker is appended after clipping, so the payload exceeds
`MAX_TOOL_PAYLOAD_CHARS` and the claimed bound is false. -/
theorem loader_payload_exceeds_budget :
    MAX_TOOL_PAYLOAD_CHARS <
      ((load_sysmon (some (List.replicate 6001 'a'))).1).length := by
  have hm : truncMarker.length = 16 := by decide
  have hlen : (truncate_json (List.replicate 6001 'a')).length = 6016 := by
    simp only [truncate_json]
    rw [if_pos (by rw [List.length_replicate]; norm_num [MAX_TOOL_PAYLOAD_CHARS])]
    rw [List.length_append, List.length_take, List.length_replicate, hm]
    norm_num [MAX_TOOL_PAYLOAD_CHARS]
  simp only [load_sysmon]
  rw [hlen]
  norm_num [MAX_TOOL_PAYLOAD_CHARS]

/-- C5 amended: the JSON-based loader payload is bounded by
`MAX_TOOL_PAYLOAD_CHARS` plus the 16-character truncation marker, which
is present whenever the serialization was clipped; the handle loader
reads at most `MAX_TOOL_PAYLOAD_CHARS` characters (without a marker);
the tcpvcon loader caps the CSV at 200 rows plus one marker line but is
not bounded in characters. -/
theorem loader_payload_amended_bounds (s : List Char) (rows : List (List String)) :
    (truncate_json s).length ≤ MAX_TOOL_PAYLOAD_CHARS + truncMarker.length ∧
    (MAX_TOOL_PAYLOAD_CHARS < s.length → truncMarker <:+ truncate_json s) ∧
    (read_text_clip s).length ≤ MAX_TOOL_PAYLOAD_CHARS ∧
    (read_csv_lines 0 rows).length ≤ 201 := by
  refine ⟨?_, ?_, ?_, ?_⟩
  · by_cases h : MAX_TOOL_PAYLOAD_CHARS < s.length
    · simp only [truncate_json, if_pos h, List.length_append, List.length_take]
      have := Nat.min_le_left MAX_TOOL_PAYLOAD_CHARS s.length
      omega
    · simp only [truncate_json, if_neg h]
      have := Nat.not_lt.mp h
      omega
  · intro h
    simp only [truncate_json, if_pos h]
    exact List.suffix_append _ _
  · simp only [read_text_clip, List.length_take]
    exact Nat.min_le_left _ _
  · have := read_csv_lines_length_le rows 0 (by omega)
    omega

/-- Witness for the amended C5 bounds at a clipped 6001-character
payload and a concrete CSV. -/
theorem loader_payload_amended_bounds_witness :
    (truncate_json (List.replicate 6001 'b')).length
        ≤ MAX_TOOL_PAYLOAD_CHARS + truncMarker.length ∧
    truncMarker <:+ truncate_json (List.replicate 6001 'b') ∧
    (read_text_clip (List.replicate 6001 'b')).length ≤ MAX_TOOL_PAYLOAD_CHARS ∧
    (read_csv_lines 0 [["local", "remote"]]).length ≤ 201 := by
  have h := loader_payload_amended_bounds (List.replicate 6001 'b') [["local", "remote"]]
  exact ⟨h.1, h.2.1 (by rw [List.length_replicate]; norm_num [MAX_TOOL_PAYLOAD_CHARS]),
         h.2.2.1, h.2.2.2⟩

/-! ## C6: confidence / risk_score coercion -/

/-- C6 counterexample: a decoded tool response carrying
`confidence: 150` is recorded as 150, and a summarizer response with
`risk_score: 150` is recorded as 150 — neither is clamped to `[0,100]`. -/
theorem confidence_risk_not_clamped :
    (parse_tool_json (some [("confidence", Json.num 150)]) "x" "exc"
        { tool := "sysmon", agent_name := "sysmon-analyzer" }).confidence = 150 ∧
    ¬((parse_tool_json (some [("confidence", Json.num 150)]) "x" "exc"
        { tool := "sysmon", agent_name := "sysmon-analyzer" }).confidence ≤ 100) ∧
    (parse_summary_json (some [("risk_score", Json.num 150)]) "x" "exc"
        { analysis_id := "a1" }).risk_score = 150 ∧
    ¬((parse_summary_json (some [("risk_score", Json.num 150)]) "x" "exc"
        { analysis_id := "a1" }).risk_score ≤ 100) := by
  refine ⟨by decide, by decide, by decide, by decide⟩

/-- C6 amended: the numeric confidence of a decoded tool response and
the numeric risk_score of a decoded summarizer response are
integer-coerced and stored exactly as received (coercion failure gives
0); no clamping to `[0,100]` is applied. -/
theorem confidence_risk_int_coerced (n : Int) (raw excMsg : String)
    (result : ToolAnalysisResult) (report : ThreatAnalysisReport)
    (data : List (String × Json)) :
    (parse_tool_json (some (("confidence", Json.num n) :: data)) raw excMsg
        result).confidence = n ∧
    (parse_summary_json (some (("risk_score", Json.num n) :: data)) raw excMsg
        report).risk_score = n := by
  constructor
  · simp only [parse_tool_json]
    split <;> (try split) <;> simp [jget, pyToInt]
  · simp only [parse_summary_json]
    split <;> simp [jget, pyToInt]

/-! ## C7: fallback risk score -/

/-- C7: when the summarizer response fails decoding but the cleaned
text is non-empty, with M malicious and S suspicious tool verdicts:
M > 0 gives risk `min 85 (50+15M)` and level high iff the score reaches
70, else S > 0 gives `min 65 (30+15S)` at level medium, else risk 20 at
level low. -/
theorem summary_fallback_risk (raw excMsg : String) (report : ThreatAnalysisReport)
    (hraw : pyTrim raw ≠ "") :
    (0 < toolVerdictCount report "malicious" →
        (parse_summary_json none raw excMsg report).risk_score
            = min 85 (50 + (toolVerdictCount report "malicious" : Int) * 15) ∧
        (parse_summary_json none raw excMsg report).threat_level
            = if (70 : Int) ≤ min 85 (50 + (toolVerdictCount report "malicious" : Int) * 15)
              then "high" else "medium") ∧
    (toolVerdictCount report "malicious" = 0 → 0 < toolVerdictCount report "suspicious" →
        (parse_summary_json none raw excMsg report).risk_score
            = min 65 (30 + (toolVerdictCount report "suspicious" : Int) * 15) ∧
        (parse_summary_json none raw excMsg report).threat_level = "medium") ∧
    (toolVerdictCount report "malicious" = 0 → toolVerdictCount report "suspicious" = 0 →
        (parse_summary_json none raw excMsg report).risk_score = 20 ∧
        (parse_summary_json none raw excMsg report).threat_level = "low") := by
  simp only [parse_summary_json, toolVerdictCount]
  rw [if_pos hraw]
  refine ⟨fun h1 => ?_, fun h1 h2 => ?_, fun h1 h2 => ?_⟩
  · rw [if_pos h1]
    exact ⟨rfl, rfl⟩
  · rw [h1]
    rw [if_neg (by omega), if_pos h2]
    exact ⟨rfl, rfl⟩
  · rw [h1, h2]
    rw [if_neg (by omega), if_neg (by omega)]
    exact ⟨rfl, rfl⟩

/-- Witness for C7: two malicious and one suspicious tool verdicts give
risk 80 at level high. -/
theorem summary_fallback_risk_witness :
    (parse_summary_json none "not json" "exc"
        { analysis_id := "a1",
          tool_results :=
            [{ tool := "sysmon", agent_name := "s", verdict := "malicious" },
             { tool := "procmon", agent_name := "p", verdict := "malicious" },
             { tool := "network", agent_name := "n", verdict := "suspicious" }] }).risk_score
        = 80 ∧
    (parse_summary_json none "not json" "exc"
        { analysis_id := "a1",
          tool_results :=
            [{ tool := "sysmon", agent_name := "s", verdict := "malicious" },
             { tool := "procmon", agent_name := "p", verdict := "malicious" },
             { tool := "network", agent_name := "n", verdict := "suspicious" }] }).threat_level
        = "high" := by
  have h := summary_fallback_risk "not json" "exc"
      { analysis_id := "a1",
        tool_results :=
          [{ tool := "sysmon", agent_name := "s", verdict := "malicious" },
           { tool := "procmon", agent_name := "p", verdict := "malicious" },
           { tool := "network", agent_name := "n", verdict := "suspicious" }] }
      (by decide)
  have h1 := h.1 (by decide)
  exact ⟨h1.1.trans (by decide), h1.2.trans (by decide)⟩

/-! ## C8: keyword verdict fallback -/

/-- C8: when a per-tool response fails decoding with non-empty text,
the result keeps the (stripped, 2000-char-capped) text as summary, sets
confidence 40, records the decode error, and takes its verdict from the
keyword scan of the lower-cased text. -/
theorem tool_fallback_keyword_verdict (raw excMsg : String)
    (result : ToolAnalysisResult) (hraw : pyTrim raw ≠ "") :
    (parse_tool_json none raw excMsg result).summary = pyTake (pyTrim raw) 2000 ∧
    (parse_tool_json none raw excMsg result).confidence = 40 ∧
    (parse_tool_json none raw excMsg result).error
        = some ("JSON parse error: " ++ excMsg) ∧
    (parse_tool_json none raw excMsg result).verdict =
      (if ["malicious", "malware", "trojan", "ransomware", "backdoor"].any
          (fun w => strContains (pyLower raw) w) then "malicious"
       else if ["suspicious", "anomal", "unusual", "concerning"].any
          (fun w => strContains (pyLower raw) w) then "suspicious"
       else if ["benign", "clean", "legitimate", "safe"].any
          (fun w => strContains (pyLower raw) w) then "benign"
       else "inconclusive") := by
  simp only [parse_tool_json]
  rw [if_pos hraw]
  exact ⟨rfl, rfl, rfl, rfl⟩

/-- Witness for C8: a plain-prose response containing "malicious". -/
theorem tool_fallback_keyword_verdict_witness :
    (parse_tool_json none "This binary is clearly malicious." "Expecting value"
        { tool := "metadata", agent_name := "metadata-analyzer" }).verdict = "malicious" ∧
    (parse_tool_json none "This binary is clearly malicious." "Expecting value"
        { tool := "metadata", agent_name := "metadata-analyzer" }).confidence = 40 ∧
    (parse_tool_json none "This binary is clearly malicious." "Expecting value"
        { tool := "metadata", agent_name := "metadata-analyzer" }).summary
        = "This binary is clearly malicious." := by
  have h := tool_fallback_keyword_verdict "This binary is clearly malicious."
      "Expecting value" { tool := "metadata", agent_name := "metadata-analyzer" } (by decide)
  exact ⟨h.2.2.2.trans (by decide), h.2.1, h.1.trans (by decide)⟩

/-! ## C9: cleanup idempotence -/

theorem dropWhile_eq_self_of_head (p : Char → Bool) (l : List Char)
    (h : ∀ c, l.head? = some c → p c = false) : l.dropWhile p = l := by
  cases l with
  | nil => rfl
  | cons x xs =>
    rw [List.dropWhile_cons, h x rfl]
    simp

theorem lstrip_head (l : List Char) (c : Char) (h : (lstrip l).head? = some c) :
    isSpc c = false := by
  induction l with
  | nil => simp [lstrip] at h
  | cons x xs ih =>
    rw [lstrip, List.dropWhile_cons] at h
    by_cases hx : isSpc x = true
    · rw [if_pos hx] at h
      exact ih (by rw [lstrip]; exact h)
    · rw [if_neg hx] at h
      simp only [List.head?_cons, Option.some.injEq] at h
      subst h
      simpa using hx

theorem rstrip_getLast (l : List Char) (c : Char)
    (h : (rstrip l).getLast? = some c) : isSpc c = false := by
  rw [rstrip, List.getLast?_reverse] at h
  exact lstrip_head l.reverse c (by rw [lstrip]; exact h)

theorem lstrip_eq_self (l : List Char)
    (h : ∀ c, l.head? = some c → isSpc c = false) : lstrip l = l :=
  dropWhile_eq_self_of_head isSpc l h

theorem rstrip_eq_self (l : List Char)
    (h : ∀ c, l.getLast? = some c → isSpc c = false) : rstrip l = l := by
  have hh : ∀ c, l.reverse.head? = some c → isSpc c = false := by
    intro c hc
    rw [List.head?_reverse] at hc
    exact h c hc
  rw [rstrip, dropWhile_eq_self_of_head isSpc l.reverse hh, List.reverse_reverse]

theorem pyStrip_head (l : List Char) (c : Char) (h : (pyStrip l).head? = some c) :
    isSpc c = false := by
  rw [pyStrip, rstrip] at h
  obtain ⟨t, ht⟩ := List.dropWhile_suffix (l := (lstrip l).reverse) isSpc
  have hl := congrArg List.reverse ht
  rw [List.reverse_append, List.reverse_reverse] at hl
  apply lstrip_head l c
  rw [← hl, List.head?_append, h]
  rfl

theorem pyStrip_getLast (l : List Char) (c : Char)
    (h : (pyStrip l).getLast? = some c) : isSpc c = false := by
  rw [pyStrip] at h
  exact rstrip_getLast (lstrip l) c h

theorem pyStrip_eq_self (l : List Char)
    (hh : ∀ c, l.head? = some c → isSpc c = false)
    (hl : ∀ c, l.getLast? = some c → isSpc c = false) : pyStrip l = l := by
  rw [pyStrip, lstrip_eq_self l hh, rstrip_eq_self l hl]

theorem pyStrip_idem (l : List Char) : pyStrip (pyStrip l) = pyStrip l :=
  pyStrip_eq_self _ (pyStrip_head l) (pyStrip_getLast l)

theorem pyStrip_fenceStrip (raw : List Char) :
    pyStrip (fenceStrip (pyStrip raw)) = fenceStrip (pyStrip raw) := by
  rw [fenceStrip]
  split
  · exact pyStrip_idem _
  · exact pyStrip_idem raw

theorem fenceStrip_of_not_fence (t : List Char)
    (h : fenceL.isPrefixOf t = false) : fenceStrip t = t := by
  rw [fenceStrip, h]
  simp

theorem fence_not_prefix_of_brace (rs : List Char) :
    fenceL.isPrefixOf ('{' :: rs) = false := by
  have h3 : fenceL = '\x60' :: '\x60' :: '\x60' :: [] := rfl
  rw [h3]
  simp [List.isPrefixOf]

theorem findCh_eq_some (c : Char) (l : List Char) (i : Nat)
    (h : findCh c l = some i) : i < l.length ∧ l[i]? = some c := by
  induction l generalizing i with
  | nil => simp [findCh] at h
  | cons x xs ih =>
    rw [findCh] at h
    by_cases hx : x = c
    · rw [if_pos hx] at h
      simp only [Option.some.injEq] at h
      subst h
      subst hx
      exact ⟨by simp, by simp⟩
    · rw [if_neg hx] at h
      rcases hj : findCh c xs with _ | j
      · rw [hj] at h
        simp at h
      · rw [hj] at h
        simp only [Option.map_some', Option.some.injEq] at h
        subst h
        obtain ⟨hlt, hget⟩ := ih j hj
        exact ⟨by simpa using Nat.succ_lt_succ hlt, by simpa using hget⟩

theorem rfindCh_eq_some (c : Char) (l : List Char) (i : Nat)
    (h : rfindCh c l = some i) : i < l.length ∧ l[i]? = some c := by
  rw [rfindCh] at h
  rcases hj : findCh c l.reverse with _ | j
  · rw [hj] at h
    simp at h
  · rw [hj] at h
    simp only [Option.map_some', Option.some.injEq] at h
    obtain ⟨hlt, hget⟩ := findCh_eq_some c l.reverse j hj
    rw [List.length_reverse] at hlt
    have hrev : l.reverse[j]? = l[l.length - 1 - j]? := List.getElem?_reverse hlt
    subst h
    exact ⟨by omega, by rw [← hrev]; exact hget⟩

theorem clean_idem_aux (t : List Char) (hstrip : pyStrip t = t)
    (hfence : fenceL.isPrefixOf (braceSlice t) = false) :
    clean_json_response (braceSlice t) = braceSlice t := by
  rcases hbs : findCh '{' t with _ | bs
  · have hb : braceSlice t = t := by simp only [braceSlice, hbs]
    rw [hb] at hfence ⊢
    rw [clean_json_response, hstrip, fenceStrip_of_not_fence t hfence]
    simp only [braceSlice, hbs]
  · rcases hbe : rfindCh '}' t with _ | be
    · have hb : braceSlice t = t := by simp only [braceSlice, hbs, hbe]
      rw [hb] at hfence ⊢
      rw [clean_json_response, hstrip, fenceStrip_of_not_fence t hfence]
      simp only [braceSlice, hbs, hbe]
    · by_cases hlt : bs < be
      · -- the brace span is extracted; the result starts with the brace
        -- and ends with the closing brace, so a second pass fixes it
        have hb : braceSlice t = (t.drop bs).take (be + 1 - bs) := by
          simp only [braceSlice, hbs, hbe]
          rw [if_pos hlt]
        obtain ⟨hbslt, hbsget⟩ := findCh_eq_some '{' t bs hbs
        obtain ⟨hbelt, hbeget⟩ := rfindCh_eq_some '}' t be hbe
        have hrlen : (braceSlice t).length = be + 1 - bs := by
          rw [hb, List.length_take, List.length_drop]
          omega
        have hrhead : (braceSlice t).head? = some '{' := by
          rw [List.head?_eq_getElem?, hb, List.getElem?_take, if_pos (by omega),
              List.getElem?_drop]
          simpa using hbsget
        have hrlast : (braceSlice t).getLast? = some '}' := by
          rw [List.getLast?_eq_getElem?, hrlen, hb, List.getElem?_take,
              if_pos (by omega), List.getElem?_drop,
              show bs + (be + 1 - bs - 1) = be from by omega]
          exact hbeget
        obtain ⟨rs, hr⟩ : ∃ rs, braceSlice t = '{' :: rs := by
          cases hrc : braceSlice t with
          | nil =>
            rw [hrc] at hrhead
            simp at hrhead
          | cons a as =>
            rw [hrc] at hrhead
            simp only [List.head?_cons, Option.some.injEq] at hrhead
            exact ⟨as, by rw [hrhead]⟩
        have hrstrip : pyStrip (braceSlice t) = braceSlice t := by
          apply pyStrip_eq_self
          · intro c hc
            rw [hrhead] at hc
            simp only [Option.some.injEq] at hc
            subst hc
            decide
          · intro c hc
            rw [hrlast] at hc
            simp only [Option.some.injEq] at hc
            subst hc
            decide
        have hrfence : fenceL.isPrefixOf (braceSlice t) = false := by
          rw [hr]
          exact fence_not_prefix_of_brace rs
        have hfr : findCh '{' (braceSlice t) = some 0 := by
          rw [hr, findCh]
          simp
        have hsplit : (braceSlice t).dropLast ++ ['}'] = braceSlice t :=
          List.dropLast_append_getLast? '}' (by rw [Option.mem_def, hrlast])
        have h1 : (braceSlice t).reverse = '}' :: (braceSlice t).dropLast.reverse := by
          conv_lhs => rw [← hsplit]
          simp
        have hrr : rfindCh '}' (braceSlice t) = some ((braceSlice t).length - 1) := by
          rw [rfindCh, h1, findCh]
          simp
        rw [clean_json_response, hrstrip, fenceStrip_of_not_fence _ hrfence]
        generalize hgen : braceSlice t = r at hfr hrr hrlen ⊢
        simp only [braceSlice, hfr, hrr]
        rw [if_pos (by omega)]
        rw [List.drop_zero, show r.length - 1 + 1 - 0 = r.length from by omega,
            List.take_length]
      · have hb : braceSlice t = t := by
          simp only [braceSlice, hbs, hbe]
          rw [if_neg hlt]
        rw [hb] at hfence ⊢
        rw [clean_json_response, hstrip, fenceStrip_of_not_fence t hfence]
        simp only [braceSlice, hbs, hbe]
        rw [if_neg hlt]

/-- C9 counterexample: on the input consisting of a bare fence line
followed by a second fence-opening line, one pass drops only the first
fence line, leaving output that itself starts with a fence; the second
pass then strips further, so `clean (clean s) ≠ clean s`. -/
theorem clean_not_idempotent :
    clean_json_response (clean_json_response "```\n```x\ny".data)
      ≠ clean_json_response "```\n```x\ny".data := by decide

/-- C9 amended: the cleanup is idempotent on every input whose cleaned
output does not itself start with a markdown fence (in particular
whenever the brace-span extraction fires). -/
theorem clean_idempotent_of_no_fence (raw : List Char)
    (h : fenceL.isPrefixOf (clean_json_response raw) = false) :
    clean_json_response (clean_json_response raw) = clean_json_response raw := by
  have hstrip := pyStrip_fenceStrip raw
  rw [clean_json_response] at h ⊢
  exact clean_idem_aux (fenceStrip (pyStrip raw)) hstrip h

/-- Witness for the amended C9 at a concrete fence-free input. -/
theorem clean_idempotent_of_no_fence_witness :
    clean_json_response (clean_json_response "benign verdict".data)
      = clean_json_response "benign verdict".data :=
  clean_idempotent_of_no_fence "benign verdict".data (by decide)

end Isolens
